import Mathlib

set_option maxHeartbeats 1000000

/-!
Verification of `server/services/store/sqlstore/schema_table_migration.go`.

The Go file migrates the schema-migrations bookkeeping table from its legacy
shape (one row `{version, dirty}`) to the new append-only shape (one
`(Version, Name)` row per applied migration).  We embed it shallowly:

* a database is an association list of named tables (`DB`); a table is either
  in the legacy shape or in the new log shape (`TableData`);
* every SQL write statement the Go code can issue is a constructor of `Stmt`,
  with its effect given by `execStmt`; each store method returns a
  `StepResult`: the Go return value, the database afterwards, and the ordered
  trace of write statements it executed;
* the metadata reads (`information_schema.COLUMNS`, SQLite
  `PRAGMA table_info`) are derived from the database value.  The squirrel
  query builder renders `sq.Eq{col: v}` as `col = ?` with `v` bound as a
  parameter, so `sq.Eq{"TABLE_SCHEMA": "current_schema()"}` compares against
  the literal string `"current_schema()"`; the embedding keeps that semantics;
* `getEmbeddedMigrations` reads the embedded assets directory, which lives
  outside this file, so the orchestrator is parameterized by the catalog it
  would return.
-/

namespace SchemaTableMigration

deriving instance DecidableEq for Except

/-- Database dialect tag (`model.DBType`); `generic` stands for any dialect
other than the three named ones (the `switch` default branches). -/
inductive DBType
  | generic
  | mysql
  | postgres
  | sqlite
deriving DecidableEq

/-- Migration direction (`morph/models.Direction`). -/
inductive Direction
  | up
  | down
deriving DecidableEq

/-- Migration descriptor (`morph/models.Migration`): only version, name and
direction matter to this component; migration bodies are never read. -/
structure Migration where
  version : Nat
  name : String
  direction : Direction
deriving DecidableEq

/-- `filterMigrations` from the source: drops non-`Up` entries and entries
whose version exceeds the legacy schema version, keeping input order. -/
def filterMigrations : List Migration → Nat → List Migration
  | [], _ => []
  | migration :: rest, legacySchemaVersion =>
    if migration.direction ≠ Direction.up then
      filterMigrations rest legacySchemaVersion
    else if migration.version > legacySchemaVersion then
      filterMigrations rest legacySchemaVersion
    else
      migration :: filterMigrations rest legacySchemaVersion

/-- A stored table: the legacy shape holds its single `{version, dirty}` row;
the new shape holds its `(Version, Name)` rows in insertion order. -/
inductive TableData
  | legacy (version : Nat) (dirty : Bool)
  | log (rows : List (Nat × String))
deriving DecidableEq

/-- A database: tables by name. -/
abbrev DB := List (String × TableData)

/-- Column names of a table, as the metadata catalog reports them. -/
def tableColumns : TableData → List String
  | TableData.legacy _ _ => ["version", "dirty"]
  | TableData.log _ => ["Version", "Name"]

/-- Look a table up by name. -/
def lookupTable : DB → String → Option TableData
  | [], _ => none
  | (n, t) :: rest, m => if n = m then some t else lookupTable rest m

/-- Remove every table of the given name. -/
def removeTable (db : DB) (n : String) : DB :=
  db.filter (fun p => decide (p.1 ≠ n))

/-- Overwrite the table of the given name. -/
def setTable (db : DB) (n : String) (t : TableData) : DB :=
  (n, t) :: removeTable db n

/-- Errors the database layer can report back to the Go code. -/
inductive Err
  | missingTable
  | badShape
  | emptyInsert
  | constraintViolation
  | tableExists
  | nilDereference
deriving DecidableEq

/-- The write statements the Go file issues.  The two rename constructors
reflect the two syntax families (`RENAME TABLE` for MySQL,
`ALTER TABLE ... RENAME TO` otherwise); their database effect is the same. -/
inductive Stmt
  | createTableIfNotExists (n : String)
  | insert (n : String) (rows : List (Nat × String))
  | renameMysql (old new : String)
  | renameAlter (old new : String)
  | dropIfExists (n : String)
deriving DecidableEq

/-- Effect of a single statement on the database.  An insert with no value
rows fails before reaching a table (squirrel refuses to render it); a rename
fails when the source is missing or the target exists; the new table's
primary key on `Version` rejects duplicate versions. -/
def execStmt (db : DB) : Stmt → Except Err DB
  | Stmt.createTableIfNotExists n =>
    if (lookupTable db n).isSome then Except.ok db
    else Except.ok (setTable db n (TableData.log []))
  | Stmt.insert n rows =>
    if rows.isEmpty then Except.error Err.emptyInsert
    else
      match lookupTable db n with
      | none => Except.error Err.missingTable
      | some (TableData.legacy _ _) => Except.error Err.badShape
      | some (TableData.log existing) =>
        if ((existing ++ rows).map Prod.fst).Nodup then
          Except.ok (setTable db n (TableData.log (existing ++ rows)))
        else Except.error Err.constraintViolation
  | Stmt.renameMysql old new =>
    (match lookupTable db old with
     | none => Except.error Err.missingTable
     | some t =>
       if (lookupTable db new).isSome then Except.error Err.tableExists
       else Except.ok (setTable (removeTable db old) new t))
  | Stmt.renameAlter old new =>
    (match lookupTable db old with
     | none => Except.error Err.missingTable
     | some t =>
       if (lookupTable db new).isSome then Except.error Err.tableExists
       else Except.ok (setTable (removeTable db old) new t))
  | Stmt.dropIfExists n => Except.ok (removeTable db n)

/-- The store handle (`SQLStore`): dialect, table-name pfx, configured schema
name, and the database it is connected to. -/
structure SQLStore where
  dbType : DBType
  tablePfx : String
  schemaName : String
  db : DB
deriving DecidableEq

/-- Replace the database of a store. -/
def setDb (s : SQLStore) (db : DB) : SQLStore :=
  ⟨s.dbType, s.tablePfx, s.schemaName, db⟩

/-- Modelled from the spec: the constant `tempSchemaMigrationTableName` is
declared outside this file (the spec only fixes that the temp working table
is distinct from the canonical and backup names). -/
def tempSchemaMigrationTableName : String := "temp_schema_migrations"

/-- Name of the canonical schema-migrations table. -/
def canonicalName (s : SQLStore) : String :=
  s.tablePfx ++ "schema_migrations"

/-- Name of the temp working table. -/
def tempName (s : SQLStore) : String :=
  s.tablePfx ++ tempSchemaMigrationTableName

/-- Name of the backup table left behind by the swap. -/
def oldTempName (s : SQLStore) : String :=
  s.tablePfx ++ "schema_migrations_old_temp"

/-- One row of `information_schema.COLUMNS`. -/
structure ColumnsRow where
  tableSchema : String
  tableName : String
  columnName : String
deriving DecidableEq

/-- The `information_schema.COLUMNS` catalog of a database: one row per
column of every table, all in the connection's schema. -/
def informationSchemaColumns (schema : String) : DB → List ColumnsRow
  | [] => []
  | (n, t) :: rest =>
    (tableColumns t).map (fun c => ⟨schema, n, c⟩)
      ++ informationSchemaColumns schema rest

/-- The per-dialect `TABLE_SCHEMA` filter added by the `switch` in
`isSchemaMigrationNeeded`.  squirrel binds the map value as a parameter, so
the Postgres branch compares with the literal string `"current_schema()"`. -/
def dialectSchemaFilter (s : SQLStore) (r : ColumnsRow) : Bool :=
  match s.dbType with
  | DBType.mysql => r.tableSchema == s.schemaName
  | DBType.postgres => r.tableSchema == "current_schema()"
  | _ => true

/-- The `count(*)` returned by the metadata query of
`isSchemaMigrationNeeded`. -/
def dirtyColumnCount (s : SQLStore) : Nat :=
  ((informationSchemaColumns s.schemaName s.db).filter
    (fun r => r.tableName == canonicalName s && r.columnName == "dirty"
      && dialectSchemaFilter s r)).length

/-- Lines 131-139 of the source: scan the count and decide.  A scan error is
returned as-is; otherwise migration is needed iff the count is exactly 1. -/
def decideMigrationNeeded (scan : Except Err Int) : Except Err Bool :=
  match scan with
  | Except.error e => Except.error e
  | Except.ok count => Except.ok (count == 1)

/-- One row of `PRAGMA table_info`: six fields scanned into `*string`
pointers, `none` modelling SQL NULL (the default-value field is NULL here). -/
def pragmaRow (i : Nat) (c : String) : List (Option String) :=
  [some (toString i), some c, some "TEXT", some "0", none, some "0"]

/-- `PRAGMA table_info` on the canonical table: one row per column; an
unknown table yields no rows and no error. -/
def pragmaTableInfo (s : SQLStore) : List (List (Option String)) :=
  match lookupTable s.db (canonicalName s) with
  | none => []
  | some t => (tableColumns t).enum.map (fun p => pragmaRow p.1 p.2)

/-- The scan loop of `isSchemaMigrationNeededSQLite` (lines 176-184): walk
the rows looking for one whose second field, dereferenced with no nil check,
equals `"dirty"`.  `none` models the nil-pointer panic. -/
def sqliteDirtyScan : List (List (Option String)) → Option Bool
  | [] => some false
  | row :: rest =>
    if 2 ≤ row.length then
      match row.get? 1 with
      | some (some name) =>
        if name == "dirty" then some true else sqliteDirtyScan rest
      | some none => none
      | none => none
    else sqliteDirtyScan rest

/-- `isSchemaMigrationNeededSQLite`: introspect the canonical table and scan
for a `dirty` column.  The `nilDereference` branch stands for the panic and
is unreachable on rows `PRAGMA table_info` actually produces. -/
def isSchemaMigrationNeededSQLite (s : SQLStore) : Except Err Bool :=
  match sqliteDirtyScan (pragmaTableInfo s) with
  | some b => Except.ok b
  | none => Except.error Err.nilDereference

/-- `isSchemaMigrationNeeded`: SQLite goes through `PRAGMA table_info`; the
other dialects count `dirty` columns in `information_schema.COLUMNS`. -/
def isSchemaMigrationNeeded (s : SQLStore) : Except Err Bool :=
  if s.dbType = DBType.sqlite then isSchemaMigrationNeededSQLite s
  else decideMigrationNeeded (Except.ok (dirtyColumnCount s : Int))

/-- `getLegacySchemaVersion`: `SELECT version FROM <pfx>schema_migrations`
scanned with `QueryRow` — the first row's version, an error when there is no
table or no row. -/
def getLegacySchemaVersion (s : SQLStore) : Except Err Nat :=
  match lookupTable s.db (canonicalName s) with
  | none => Except.error Err.missingTable
  | some (TableData.legacy v _) => Except.ok v
  | some (TableData.log []) => Except.error Err.missingTable
  | some (TableData.log ((v, _) :: _)) => Except.ok v

/-- Result of running a store method: the Go return value, the database it
leaves behind, and the write statements it executed, in order. -/
structure StepResult (α : Type) where
  res : Except Err α
  db : DB
  tr : List Stmt

/-- Execute one statement against the store's database. -/
def runStmt (s : SQLStore) (stmt : Stmt) : StepResult Unit :=
  match execStmt s.db stmt with
  | Except.ok db => ⟨Except.ok (), db, [stmt]⟩
  | Except.error e => ⟨Except.error e, s.db, [stmt]⟩

/-- `createTempSchemaTable`: `CREATE TABLE IF NOT EXISTS` for the temp
table. -/
def createTempSchemaTable (s : SQLStore) : StepResult Unit :=
  runStmt s (Stmt.createTableIfNotExists (tempName s))

/-- `populateTempSchemaTable`: one multi-row insert of the filtered
migrations as `(Version, Name)` pairs — issued even when the list is
empty. -/
def populateTempSchemaTable (s : SQLStore) (migrations : List Migration) :
    StepResult Unit :=
  runStmt s
    (Stmt.insert (tempName s) (migrations.map (fun m => (m.version, m.name))))

/-- The rename statement `useNewSchemaTable` builds: the `RENAME TABLE`
family for MySQL, `ALTER TABLE ... RENAME TO` for every other dialect. -/
def renameStmt (t : DBType) (old new : String) : Stmt :=
  if t = DBType.mysql then Stmt.renameMysql old new
  else Stmt.renameAlter old new

/-- `useNewSchemaTable`: rename canonical → backup, then, only if that
succeeded, rename temp → canonical. -/
def useNewSchemaTable (s : SQLStore) : StepResult Unit :=
  let r1 := renameStmt s.dbType (canonicalName s) (oldTempName s)
  match execStmt s.db r1 with
  | Except.error e => ⟨Except.error e, s.db, [r1]⟩
  | Except.ok db1 =>
    let r2 := renameStmt s.dbType (tempName s) (canonicalName s)
    match execStmt db1 r2 with
    | Except.error e => ⟨Except.error e, db1, [r1, r2]⟩
    | Except.ok db2 => ⟨Except.ok (), db2, [r1, r2]⟩

/-- `deleteOldSchemaMigrationTable`: `DROP TABLE IF EXISTS` on the backup
table.  Never called by the orchestrator. -/
def deleteOldSchemaMigrationTable (s : SQLStore) : StepResult Unit :=
  runStmt s (Stmt.dropIfExists (oldTempName s))

/-- `EnsureSchemaMigrationFormat`, parameterized by the catalog that
`getEmbeddedMigrations` would return (the embedded assets directory lives
outside this file). -/
def ensureSchemaMigrationFormat (catalog : List Migration) (s : SQLStore) :
    StepResult Unit :=
  match isSchemaMigrationNeeded s with
  | Except.error e => ⟨Except.error e, s.db, []⟩
  | Except.ok false => ⟨Except.ok (), s.db, []⟩
  | Except.ok true =>
    match getLegacySchemaVersion s with
    | Except.error e => ⟨Except.error e, s.db, []⟩
    | Except.ok legacySchemaVersion =>
      let filteredMigrations := filterMigrations catalog legacySchemaVersion
      let c := createTempSchemaTable s
      match c.res with
      | Except.error e => ⟨Except.error e, c.db, c.tr⟩
      | Except.ok _ =>
        let p := populateTempSchemaTable (setDb s c.db) filteredMigrations
        match p.res with
        | Except.error e => ⟨Except.error e, p.db, c.tr ++ p.tr⟩
        | Except.ok _ =>
          let u := useNewSchemaTable (setDb s p.db)
          ⟨u.res, u.db, c.tr ++ p.tr ++ u.tr⟩

/-! ### Concrete fixtures -/

/-- The spec's example catalog: Up/Down descriptor pairs for versions 1-5. -/
def exCatalog : List Migration :=
  [⟨1, "init", Direction.up⟩, ⟨1, "init", Direction.down⟩,
   ⟨2, "add_users", Direction.up⟩, ⟨2, "add_users", Direction.down⟩,
   ⟨3, "add_index", Direction.up⟩, ⟨3, "add_index", Direction.down⟩,
   ⟨4, "add_column", Direction.up⟩, ⟨4, "add_column", Direction.down⟩,
   ⟨5, "add_constraint", Direction.up⟩, ⟨5, "add_constraint", Direction.down⟩]

/-- A database holding only the legacy-shaped canonical table at version 3,
with the dirty flag set. -/
def legacyDB : DB := [("schema_migrations", TableData.legacy 3 true)]

/-- A store over `legacyDB` with an empty table pfx, connected to schema
`public`. -/
def mkStore (t : DBType) : SQLStore := ⟨t, "", "public", legacyDB⟩

/-- A database whose canonical table is already in the new shape. -/
def newShapeDB : DB := [("schema_migrations", TableData.log [(1, "init")])]

/-- A store over `newShapeDB`. -/
def mkNewStore (t : DBType) : SQLStore := ⟨t, "", "public", newShapeDB⟩

/-- A store whose legacy version 0 is below every catalog version, so the
filtered list is empty. -/
def ver0Store : SQLStore :=
  ⟨DBType.generic, "", "public", [("schema_migrations", TableData.legacy 0 false)]⟩

/-- A MySQL store ready for the swap step: legacy canonical table, populated
temp table, no backup table. -/
def swapStore : SQLStore :=
  ⟨DBType.mysql, "", "public",
   [("schema_migrations", TableData.legacy 3 true),
    ("temp_schema_migrations", TableData.log [(1, "init")])]⟩

/-! ### Association-list lemmas -/

theorem lookupTable_setTable_self (db : DB) (n : String) (t : TableData) :
    lookupTable (setTable db n t) n = some t := by
  simp [setTable, lookupTable]

theorem lookupTable_removeTable_self (db : DB) (n : String) :
    lookupTable (removeTable db n) n = none := by
  induction db with
  | nil => rfl
  | cons hd tl ih =>
    by_cases h : hd.1 = n
    · simpa [removeTable, List.filter_cons, h] using ih
    · simpa [removeTable, List.filter_cons, h, lookupTable] using ih

theorem lookupTable_removeTable_ne (db : DB) (n m : String) (h : m ≠ n) :
    lookupTable (removeTable db n) m = lookupTable db m := by
  induction db with
  | nil => rfl
  | cons hd tl ih =>
    obtain ⟨a, t⟩ := hd
    by_cases h1 : a = n
    · have h2 : ¬ a = m := fun hc => h (hc.symm.trans h1)
      have e : removeTable ((a, t) :: tl) n = removeTable tl n := by
        simp [removeTable, List.filter_cons, h1]
      rw [e, ih]
      simp [lookupTable, h2]
    · have e : removeTable ((a, t) :: tl) n = (a, t) :: removeTable tl n := by
        simp [removeTable, List.filter_cons, h1]
      rw [e]
      by_cases h2 : a = m
      · simp [lookupTable, h2]
      · simp [lookupTable, h2]
        exact ih

theorem lookupTable_setTable_ne (db : DB) (n m : String) (t : TableData)
    (h : m ≠ n) :
    lookupTable (setTable db n t) m = lookupTable db m := by
  have h1 : ¬ n = m := fun hc => h hc.symm
  simp [setTable, lookupTable, h1]
  exact lookupTable_removeTable_ne db n m h

theorem mem_removeTable (db : DB) (n : String) (p : String × TableData)
    (h : p ∈ removeTable db n) : p ∈ db ∧ p.1 ≠ n := by
  have := List.mem_filter.mp h
  exact ⟨this.1, by simpa using this.2⟩

theorem removeTable_removeTable (db : DB) (n : String) :
    removeTable (removeTable db n) n = removeTable db n := by
  simp [removeTable, List.filter_filter]

/-! ### Table-name distinctness -/

theorem append_ne_of_length_ne (p a b : String) (h : a.length ≠ b.length) :
    p ++ a ≠ p ++ b := by
  intro hc
  apply h
  have := congrArg String.length hc
  simp [String.length_append] at this
  omega

theorem tempName_ne_canonicalName (s : SQLStore) :
    tempName s ≠ canonicalName s := by
  exact append_ne_of_length_ne s.tablePfx _ _ (by decide)

theorem oldTempName_ne_canonicalName (s : SQLStore) :
    oldTempName s ≠ canonicalName s := by
  exact append_ne_of_length_ne s.tablePfx _ _ (by decide)

theorem tempName_ne_oldTempName (s : SQLStore) :
    tempName s ≠ oldTempName s := by
  exact append_ne_of_length_ne s.tablePfx _ _ (by decide)

theorem lookupTable_mem (db : DB) (m : String) (t : TableData)
    (h : lookupTable db m = some t) : (m, t) ∈ db := by
  induction db with
  | nil => simp [lookupTable] at h
  | cons hd tl ih =>
    obtain ⟨a, u⟩ := hd
    by_cases h1 : a = m
    · simp [lookupTable, h1] at h
      simp [h1, h]
    · simp [lookupTable, h1] at h
      exact List.mem_cons_of_mem _ (ih h)

/-! ### Metadata-count lemmas -/

theorem dirtyColumnCount_setDb_cons (s : SQLStore) (a : String) (t : TableData)
    (rest : DB) :
    dirtyColumnCount (setDb s ((a, t) :: rest)) =
      ((tableColumns t).filter (fun c =>
        a == canonicalName s && c == "dirty"
          && dialectSchemaFilter s ⟨s.schemaName, a, c⟩)).length
        + dirtyColumnCount (setDb s rest) := by
  simp only [dirtyColumnCount, informationSchemaColumns, List.filter_append,
    List.length_append, List.filter_map, List.length_map]
  rfl

theorem dirtyColumnCount_zero (s : SQLStore) (db : DB)
    (h : ∀ a t, (a, t) ∈ db → a = canonicalName s → "dirty" ∉ tableColumns t) :
    dirtyColumnCount (setDb s db) = 0 := by
  induction db with
  | nil => rfl
  | cons hd tl ih =>
    obtain ⟨a, t⟩ := hd
    rw [dirtyColumnCount_setDb_cons]
    have htl : dirtyColumnCount (setDb s tl) = 0 :=
      ih (fun b u hm => h b u (List.mem_cons_of_mem _ hm))
    rw [htl]
    by_cases h1 : a = canonicalName s
    · have h2 : "dirty" ∉ tableColumns t := h a t (List.mem_cons_self _ _) h1
      have h3 : (tableColumns t).filter (fun c =>
          a == canonicalName s && c == "dirty"
            && dialectSchemaFilter s ⟨s.schemaName, a, c⟩) = [] := by
        apply List.filter_eq_nil_iff.mpr
        intro c hc
        intro hfc
        apply h2
        have : c == "dirty" := by
          cases hb : (c == "dirty") with
          | true => rfl
          | false => simp [hb] at hfc
        have : c = "dirty" := by simpa using this
        exact this ▸ hc
      simp [h3]
    · have h3 : (tableColumns t).filter (fun c =>
          a == canonicalName s && c == "dirty"
            && dialectSchemaFilter s ⟨s.schemaName, a, c⟩) = [] := by
        apply List.filter_eq_nil_iff.mpr
        intro c hc
        simp [h1]
      simp [h3]

theorem dialectSchemaFilter_self (s : SQLStore)
    (hdt : s.dbType ≠ DBType.postgres) (a c : String) :
    dialectSchemaFilter s ⟨s.schemaName, a, c⟩ = true := by
  cases h : s.dbType
  · simp [dialectSchemaFilter, h]
  · simp [dialectSchemaFilter, h]
  · exact absurd h hdt
  · simp [dialectSchemaFilter, h]

theorem dirtyColumnCount_legacy_aux (s : SQLStore)
    (hdt : s.dbType ≠ DBType.postgres) (v : Nat) (d : Bool) (db : DB)
    (hwf : (db.map Prod.fst).Nodup)
    (hleg : lookupTable db (canonicalName s) = some (TableData.legacy v d)) :
    dirtyColumnCount (setDb s db) = 1 := by
  induction db with
  | nil => simp [lookupTable] at hleg
  | cons hd tl ih =>
    obtain ⟨a, t⟩ := hd
    rw [dirtyColumnCount_setDb_cons]
    simp only [List.map_cons, List.nodup_cons] at hwf
    by_cases h1 : a = canonicalName s
    · simp [lookupTable, h1] at hleg
      have htl : dirtyColumnCount (setDb s tl) = 0 := by
        apply dirtyColumnCount_zero
        intro b u hm hb
        exfalso
        apply hwf.1
        have : b ∈ tl.map Prod.fst := List.mem_map_of_mem _ hm
        rw [h1, ← hb] at *
        exact this
      subst hleg
      rw [htl]
      have hfs := dialectSchemaFilter_self s hdt (canonicalName s)
      simp [tableColumns, h1, hfs]
    · simp [lookupTable, h1] at hleg
      have htl := ih hwf.2 hleg
      rw [htl]
      simp [h1]

/-! ### Detector lemmas -/

theorem isSchemaMigrationNeeded_true_of_legacy (s : SQLStore)
    (hdt : s.dbType ≠ DBType.postgres)
    (hwf : (s.db.map Prod.fst).Nodup) (v : Nat) (d : Bool)
    (hleg : lookupTable s.db (canonicalName s) = some (TableData.legacy v d)) :
    isSchemaMigrationNeeded s = Except.ok true := by
  by_cases hsq : s.dbType = DBType.sqlite
  · unfold isSchemaMigrationNeeded
    rw [if_pos hsq]
    unfold isSchemaMigrationNeededSQLite pragmaTableInfo
    rw [hleg]
    rfl
  · unfold isSchemaMigrationNeeded
    rw [if_neg hsq]
    have hc : dirtyColumnCount s = 1 :=
      dirtyColumnCount_legacy_aux s hdt v d s.db hwf hleg
    simp [decideMigrationNeeded, hc]

theorem isSchemaMigrationNeeded_false_of_log (s : SQLStore)
    (h : ∀ a t, (a, t) ∈ s.db → a = canonicalName s →
      ∃ rs, t = TableData.log rs) :
    isSchemaMigrationNeeded s = Except.ok false := by
  by_cases hsq : s.dbType = DBType.sqlite
  · unfold isSchemaMigrationNeeded
    rw [if_pos hsq]
    unfold isSchemaMigrationNeededSQLite pragmaTableInfo
    cases hl : lookupTable s.db (canonicalName s) with
    | none => rfl
    | some t =>
      obtain ⟨rs, hrs⟩ := h _ _ (lookupTable_mem _ _ _ hl) rfl
      rw [hrs]
      rfl
  · unfold isSchemaMigrationNeeded
    rw [if_neg hsq]
    have hc : dirtyColumnCount s = 0 := by
      have := dirtyColumnCount_zero s s.db (by
        intro a t hm ha
        obtain ⟨rs, hrs⟩ := h a t hm ha
        rw [hrs]
        simp [tableColumns])
      exact this
    simp [decideMigrationNeeded, hc]

/-! ### Step inversion lemmas -/

theorem execStmt_renameStmt (db : DB) (t : DBType) (a b : String) :
    execStmt db (renameStmt t a b) =
      match lookupTable db a with
      | none => Except.error Err.missingTable
      | some td =>
        if (lookupTable db b).isSome then Except.error Err.tableExists
        else Except.ok (setTable (removeTable db a) b td) := by
  unfold renameStmt
  by_cases h : t = DBType.mysql
  · rw [if_pos h]
    rfl
  · rw [if_neg h]
    rfl

theorem createTempSchemaTable_res (s : SQLStore) :
    (createTempSchemaTable s).res = Except.ok () ∧
      (createTempSchemaTable s).tr
        = [Stmt.createTableIfNotExists (tempName s)] ∧
      (createTempSchemaTable s).db
        = (if (lookupTable s.db (tempName s)).isSome then s.db
           else setTable s.db (tempName s) (TableData.log [])) := by
  unfold createTempSchemaTable runStmt execStmt
  by_cases h : (lookupTable s.db (tempName s)).isSome
  · simp [h]
  · simp [h]

theorem execStmt_insert (db : DB) (n : String) (rows : List (Nat × String)) :
    execStmt db (Stmt.insert n rows) =
      (if rows.isEmpty then Except.error Err.emptyInsert
       else
         match lookupTable db n with
         | none => Except.error Err.missingTable
         | some (TableData.legacy _ _) => Except.error Err.badShape
         | some (TableData.log existing) =>
           if ((existing ++ rows).map Prod.fst).Nodup then
             Except.ok (setTable db n (TableData.log (existing ++ rows)))
           else Except.error Err.constraintViolation) := rfl

theorem populateTempSchemaTable_ok (s : SQLStore) (ms : List Migration)
    (h : (populateTempSchemaTable s ms).res = Except.ok ()) :
    ∃ ex, ms ≠ [] ∧
      lookupTable s.db (tempName s) = some (TableData.log ex) ∧
      ((ex ++ ms.map (fun m => (m.version, m.name))).map Prod.fst).Nodup ∧
      (populateTempSchemaTable s ms).db =
        setTable s.db (tempName s)
          (TableData.log (ex ++ ms.map (fun m => (m.version, m.name)))) := by
  unfold populateTempSchemaTable runStmt at *
  rw [execStmt_insert] at h ⊢
  by_cases hemp : (ms.map (fun m => (m.version, m.name))).isEmpty
  · rw [if_pos hemp] at h
    simp at h
  · rw [if_neg hemp] at h ⊢
    cases hl : lookupTable s.db (tempName s) with
    | none =>
      rw [hl] at h
      simp at h
    | some td =>
      cases td with
      | legacy v d =>
        rw [hl] at h
        simp at h
      | log ex =>
        rw [hl] at h
        by_cases hnd :
            ((ex ++ ms.map (fun m => (m.version, m.name))).map Prod.fst).Nodup
        · dsimp only at h ⊢
          rw [if_pos hnd] at h ⊢
          refine ⟨ex, ?_, rfl, hnd, ?_⟩
          · intro hc
            subst hc
            simp at hemp
          · simp
        · dsimp only at h
          rw [if_neg hnd] at h
          simp at h

theorem useNewSchemaTable_ok (s : SQLStore)
    (h : (useNewSchemaTable s).res = Except.ok ()) :
    ∃ tc tt,
      lookupTable s.db (canonicalName s) = some tc ∧
      lookupTable s.db (oldTempName s) = none ∧
      lookupTable s.db (tempName s) = some tt ∧
      (useNewSchemaTable s).db =
        setTable
          (removeTable
            (setTable (removeTable s.db (canonicalName s)) (oldTempName s) tc)
            (tempName s))
          (canonicalName s) tt ∧
      (useNewSchemaTable s).tr =
        [renameStmt s.dbType (canonicalName s) (oldTempName s),
         renameStmt s.dbType (tempName s) (canonicalName s)] := by
  simp only [useNewSchemaTable] at h ⊢
  rw [execStmt_renameStmt] at h ⊢
  cases hc : lookupTable s.db (canonicalName s) with
  | none =>
    rw [hc] at h
    simp at h
  | some tc =>
    rw [hc] at h
    by_cases ho : (lookupTable s.db (oldTempName s)).isSome
    · dsimp only at h
      rw [if_pos ho] at h
      simp at h
    · dsimp only at h ⊢
      rw [if_neg ho] at h ⊢
      dsimp only at h ⊢
      rw [execStmt_renameStmt] at h ⊢
      have htmp : lookupTable
          (setTable (removeTable s.db (canonicalName s)) (oldTempName s) tc)
          (tempName s) = lookupTable s.db (tempName s) := by
        rw [lookupTable_setTable_ne _ _ _ _ (tempName_ne_oldTempName s),
          lookupTable_removeTable_ne _ _ _ (tempName_ne_canonicalName s)]
      rw [htmp] at h ⊢
      cases ht : lookupTable s.db (tempName s) with
      | none =>
        rw [ht] at h
        simp at h
      | some tt =>
        rw [ht] at h
        have hcn : lookupTable
            (setTable (removeTable s.db (canonicalName s)) (oldTempName s) tc)
            (canonicalName s) = none := by
          rw [lookupTable_setTable_ne _ _ _ _
            (oldTempName_ne_canonicalName s).symm]
          exact lookupTable_removeTable_self _ _
        rw [hcn] at h ⊢
        refine ⟨tc, tt, rfl, ?_, rfl, ?_, ?_⟩
        · simpa using ho
        · simp
        · simp

@[simp] theorem setDb_db (s : SQLStore) (db : DB) : (setDb s db).db = db := rfl

@[simp] theorem setDb_dbType (s : SQLStore) (db : DB) :
    (setDb s db).dbType = s.dbType := rfl

@[simp] theorem canonicalName_setDb (s : SQLStore) (db : DB) :
    canonicalName (setDb s db) = canonicalName s := rfl

@[simp] theorem tempName_setDb (s : SQLStore) (db : DB) :
    tempName (setDb s db) = tempName s := rfl

@[simp] theorem oldTempName_setDb (s : SQLStore) (db : DB) :
    oldTempName (setDb s db) = oldTempName s := rfl

theorem setDb_self (s : SQLStore) : setDb s s.db = s := rfl

theorem runStmt_tr (s : SQLStore) (stmt : Stmt) : (runStmt s stmt).tr = [stmt] := by
  unfold runStmt
  cases hex : execStmt s.db stmt <;> rfl

theorem runStmt_of_err (s : SQLStore) (stmt : Stmt) (e : Err)
    (h : execStmt s.db stmt = Except.error e) :
    runStmt s stmt = ⟨Except.error e, s.db, [stmt]⟩ := by
  unfold runStmt
  rw [h]

theorem populateTempSchemaTable_err_db (s : SQLStore) (ms : List Migration)
    (e : Err) (h : (populateTempSchemaTable s ms).res = Except.error e) :
    (populateTempSchemaTable s ms).db = s.db := by
  unfold populateTempSchemaTable runStmt at *
  cases hex : execStmt s.db
      (Stmt.insert (tempName s) (ms.map (fun m => (m.version, m.name)))) with
  | ok db2 =>
    rw [hex] at h
    simp at h
  | error e2 => rfl

theorem createTempSchemaTable_lookup_other (s : SQLStore) (m : String)
    (hm : m ≠ tempName s) :
    lookupTable (createTempSchemaTable s).db m = lookupTable s.db m := by
  obtain ⟨-, -, hdb⟩ := createTempSchemaTable_res s
  rw [hdb]
  by_cases h : (lookupTable s.db (tempName s)).isSome
  · rw [if_pos h]
  · rw [if_neg h, lookupTable_setTable_ne _ _ _ _ hm]

/-! ### Orchestrator unfolding lemmas -/

theorem ensure_det_err (catalog : List Migration) (s : SQLStore) (e : Err)
    (h : isSchemaMigrationNeeded s = Except.error e) :
    ensureSchemaMigrationFormat catalog s = ⟨Except.error e, s.db, []⟩ := by
  unfold ensureSchemaMigrationFormat
  rw [h]

theorem ensure_det_false (catalog : List Migration) (s : SQLStore)
    (h : isSchemaMigrationNeeded s = Except.ok false) :
    ensureSchemaMigrationFormat catalog s = ⟨Except.ok (), s.db, []⟩ := by
  unfold ensureSchemaMigrationFormat
  rw [h]

theorem ensure_ver_err (catalog : List Migration) (s : SQLStore) (e : Err)
    (hdet : isSchemaMigrationNeeded s = Except.ok true)
    (h : getLegacySchemaVersion s = Except.error e) :
    ensureSchemaMigrationFormat catalog s = ⟨Except.error e, s.db, []⟩ := by
  unfold ensureSchemaMigrationFormat
  rw [hdet, h]

theorem ensure_needed (catalog : List Migration) (s : SQLStore) (v : Nat)
    (hdet : isSchemaMigrationNeeded s = Except.ok true)
    (hv : getLegacySchemaVersion s = Except.ok v) :
    ensureSchemaMigrationFormat catalog s =
      (match (populateTempSchemaTable (setDb s (createTempSchemaTable s).db)
          (filterMigrations catalog v)).res with
       | Except.error e =>
         ⟨Except.error e,
          (populateTempSchemaTable (setDb s (createTempSchemaTable s).db)
            (filterMigrations catalog v)).db,
          (createTempSchemaTable s).tr
            ++ (populateTempSchemaTable (setDb s (createTempSchemaTable s).db)
              (filterMigrations catalog v)).tr⟩
       | Except.ok _ =>
         ⟨(useNewSchemaTable (setDb s
            (populateTempSchemaTable (setDb s (createTempSchemaTable s).db)
              (filterMigrations catalog v)).db)).res,
          (useNewSchemaTable (setDb s
            (populateTempSchemaTable (setDb s (createTempSchemaTable s).db)
              (filterMigrations catalog v)).db)).db,
          (createTempSchemaTable s).tr
            ++ (populateTempSchemaTable (setDb s (createTempSchemaTable s).db)
              (filterMigrations catalog v)).tr
            ++ (useNewSchemaTable (setDb s
              (populateTempSchemaTable (setDb s (createTempSchemaTable s).db)
                (filterMigrations catalog v)).db)).tr⟩) := by
  unfold ensureSchemaMigrationFormat
  rw [hdet, hv]
  have hc := (createTempSchemaTable_res s).1
  dsimp only
  rw [hc]

theorem useNewSchemaTable_tr (s : SQLStore) :
    (useNewSchemaTable s).tr
        = [renameStmt s.dbType (canonicalName s) (oldTempName s)] ∨
      (useNewSchemaTable s).tr
        = [renameStmt s.dbType (canonicalName s) (oldTempName s),
           renameStmt s.dbType (tempName s) (canonicalName s)] := by
  simp only [useNewSchemaTable]
  cases h1 : execStmt s.db (renameStmt s.dbType (canonicalName s) (oldTempName s)) with
  | error e => left; rfl
  | ok db1 =>
    dsimp only
    cases h2 : execStmt db1 (renameStmt s.dbType (tempName s) (canonicalName s)) with
    | error e => right; rfl
    | ok db2 => right; rfl

theorem renameStmt_cases (t : DBType) (a b : String) :
    renameStmt t a b = Stmt.renameMysql a b ∨ renameStmt t a b = Stmt.renameAlter a b := by
  unfold renameStmt
  by_cases h : t = DBType.mysql
  · left; rw [if_pos h]
  · right; rw [if_neg h]

theorem populateTempSchemaTable_tr (s : SQLStore) (ms : List Migration) :
    (populateTempSchemaTable s ms).tr
      = [Stmt.insert (tempName s) (ms.map (fun m => (m.version, m.name)))] := by
  unfold populateTempSchemaTable
  exact runStmt_tr _ _

theorem ensure_tr_sub (catalog : List Migration) (s : SQLStore) (stmt : Stmt)
    (h : stmt ∈ (ensureSchemaMigrationFormat catalog s).tr) :
    (∃ m, stmt = Stmt.createTableIfNotExists m) ∨
    (∃ m rows, stmt = Stmt.insert m rows) ∨
    (∃ a b, stmt = Stmt.renameMysql a b) ∨
    (∃ a b, stmt = Stmt.renameAlter a b) := by
  cases hdet : isSchemaMigrationNeeded s with
  | error e =>
    rw [ensure_det_err catalog s e hdet] at h
    simp at h
  | ok b =>
    cases b with
    | false =>
      rw [ensure_det_false catalog s hdet] at h
      simp at h
    | true =>
      cases hv : getLegacySchemaVersion s with
      | error e =>
        rw [ensure_ver_err catalog s e hdet hv] at h
        simp at h
      | ok v =>
        rw [ensure_needed catalog s v hdet hv] at h
        have hctr := (createTempSchemaTable_res s).2.1
        cases hp : (populateTempSchemaTable (setDb s (createTempSchemaTable s).db)
            (filterMigrations catalog v)).res with
        | error e =>
          rw [hp] at h
          dsimp only at h
          rw [hctr, populateTempSchemaTable_tr] at h
          simp at h
          rcases h with h | h
          · exact Or.inl ⟨_, h⟩
          · exact Or.inr (Or.inl ⟨_, _, h⟩)
        | ok u0 =>
          rw [hp] at h
          dsimp only at h
          rw [hctr, populateTempSchemaTable_tr] at h
          rcases useNewSchemaTable_tr (setDb s
              (populateTempSchemaTable (setDb s (createTempSchemaTable s).db)
                (filterMigrations catalog v)).db) with hu | hu <;>
            rw [hu] at h <;>
            simp only [setDb_dbType, canonicalName_setDb, oldTempName_setDb,
              tempName_setDb] at h <;>
            simp at h
          · rcases h with h | h | h
            · exact Or.inl ⟨_, h⟩
            · exact Or.inr (Or.inl ⟨_, _, h⟩)
            · rcases renameStmt_cases s.dbType (canonicalName s) (oldTempName s)
                with hr | hr
              · rw [hr] at h
                exact Or.inr (Or.inr (Or.inl ⟨_, _, h⟩))
              · rw [hr] at h
                exact Or.inr (Or.inr (Or.inr ⟨_, _, h⟩))
          · rcases h with h | h | h | h
            · exact Or.inl ⟨_, h⟩
            · exact Or.inr (Or.inl ⟨_, _, h⟩)
            · rcases renameStmt_cases s.dbType (canonicalName s) (oldTempName s)
                with hr | hr
              · rw [hr] at h
                exact Or.inr (Or.inr (Or.inl ⟨_, _, h⟩))
              · rw [hr] at h
                exact Or.inr (Or.inr (Or.inr ⟨_, _, h⟩))
            · rcases renameStmt_cases s.dbType (tempName s) (canonicalName s)
                with hr | hr
              · rw [hr] at h
                exact Or.inr (Or.inr (Or.inl ⟨_, _, h⟩))
              · rw [hr] at h
                exact Or.inr (Or.inr (Or.inr ⟨_, _, h⟩))

/-! ### Filter characterization -/

theorem filterMigrations_eq_filter (ms : List Migration) (v : Nat) :
    filterMigrations ms v
      = ms.filter (fun m =>
          decide (m.direction = Direction.up) && decide (m.version ≤ v)) := by
  induction ms with
  | nil => rfl
  | cons m rest ih =>
    by_cases h1 : m.direction = Direction.up
    · by_cases h2 : m.version ≤ v
      · have h3 : ¬ m.version > v := by omega
        simp [filterMigrations, List.filter_cons, h1, h2, h3, ih]
      · have h3 : m.version > v := by omega
        simp [filterMigrations, List.filter_cons, h1, h2, h3, ih]
    · simp [filterMigrations, List.filter_cons, h1, ih]

/-! ### The claims -/

/-- C5: `filterMigrations` is a pure function keeping exactly the `Up`
catalog entries with version at most the legacy version, in input order; on
the versions-1-to-5 example catalog with legacy version 3 it returns exactly
the Up entries for versions 1, 2 and 3 in catalog order. -/
theorem claim_C5 :
    (∀ (ms : List Migration) (v : Nat),
      filterMigrations ms v
        = ms.filter (fun m =>
            decide (m.direction = Direction.up) && decide (m.version ≤ v))) ∧
    filterMigrations exCatalog 3
      = [⟨1, "init", Direction.up⟩, ⟨2, "add_users", Direction.up⟩,
         ⟨3, "add_index", Direction.up⟩] :=
  ⟨filterMigrations_eq_filter, by decide⟩

/-- C4: for non-SQLite dialects the detector decides "migration needed" iff
the scanned column count is exactly 1 (0 or 2 yield false), and any scan
error is returned unchanged as a fatal error. -/
theorem claim_C4 :
    (∀ c : Int, decideMigrationNeeded (Except.ok c) = Except.ok (c == 1)) ∧
    (∀ c : Int,
      decideMigrationNeeded (Except.ok c) = Except.ok true ↔ c = 1) ∧
    decideMigrationNeeded (Except.ok 0) = Except.ok false ∧
    decideMigrationNeeded (Except.ok 2) = Except.ok false ∧
    (∀ e : Err, decideMigrationNeeded (Except.error e) = Except.error e) ∧
    (∀ s : SQLStore, s.dbType ≠ DBType.sqlite →
      isSchemaMigrationNeeded s
        = decideMigrationNeeded (Except.ok (dirtyColumnCount s : Int))) := by
  refine ⟨fun c => rfl, fun c => ?_, rfl, rfl, fun e => rfl, fun s h => ?_⟩
  · simp [decideMigrationNeeded]
  · unfold isSchemaMigrationNeeded
    rw [if_neg h]

theorem claim_C4_witness :
    (mkStore DBType.generic).dbType ≠ DBType.sqlite ∧
    isSchemaMigrationNeeded (mkStore DBType.generic)
      = decideMigrationNeeded
          (Except.ok (dirtyColumnCount (mkStore DBType.generic) : Int)) :=
  ⟨by decide, claim_C4.2.2.2.2.2 (mkStore DBType.generic) (by decide)⟩

/-- C3: a legacy table (with a `dirty` column) is detected on the generic,
MySQL and SQLite dialects and a new-shape table is not; on Postgres the
schema filter compares `TABLE_SCHEMA` against the bound literal string
`"current_schema()"`, so the legacy table in schema `public` is NOT detected
— the code diverges from the claimed per-dialect detection correctness. -/
theorem claim_C3 :
    isSchemaMigrationNeeded (mkStore DBType.generic) = Except.ok true ∧
    isSchemaMigrationNeeded (mkStore DBType.mysql) = Except.ok true ∧
    isSchemaMigrationNeeded (mkStore DBType.sqlite) = Except.ok true ∧
    isSchemaMigrationNeeded (mkNewStore DBType.generic) = Except.ok false ∧
    isSchemaMigrationNeeded (mkNewStore DBType.mysql) = Except.ok false ∧
    isSchemaMigrationNeeded (mkNewStore DBType.postgres) = Except.ok false ∧
    isSchemaMigrationNeeded (mkNewStore DBType.sqlite) = Except.ok false ∧
    isSchemaMigrationNeeded (mkStore DBType.postgres) = Except.ok false := by
  decide

/-- C9: with an empty filtered list, `populateTempSchemaTable` still issues
the insert statement with zero value rows (no empty-list guard), and the
orchestrator run on a version-0 legacy store fails with the empty-insert
error after the insert was attempted. -/
theorem claim_C9 :
    (∀ s : SQLStore,
      (populateTempSchemaTable s []).tr = [Stmt.insert (tempName s) []]) ∧
    (∀ s : SQLStore,
      (populateTempSchemaTable s []).res = Except.error Err.emptyInsert) ∧
    filterMigrations exCatalog 0 = [] ∧
    (ensureSchemaMigrationFormat exCatalog ver0Store).res
      = Except.error Err.emptyInsert ∧
    Stmt.insert (tempName ver0Store) []
      ∈ (ensureSchemaMigrationFormat exCatalog ver0Store).tr :=
  ⟨fun s => rfl, fun s => rfl, by decide, by decide, by decide⟩

/-- C10: the SQLite detector's scan loop dereferences each row's second
field with no nil check; under the precondition that every scanned name
field is non-NULL the scan is total, while a NULL name field makes it hit
the nil dereference. -/
theorem claim_C10 :
    (∀ data : List (List (Option String)),
      (∀ row ∈ data, ∀ x, row.get? 1 = some x → x.isSome) →
      (sqliteDirtyScan data).isSome) ∧
    sqliteDirtyScan
        [[some "0", none, some "TEXT", some "0", none, some "0"]] = none := by
  constructor
  · intro data
    induction data with
    | nil =>
      intro hpre
      simp [sqliteDirtyScan]
    | cons row rest ih =>
      intro hpre
      unfold sqliteDirtyScan
      by_cases hlen : 2 ≤ row.length
      · rw [if_pos hlen]
        cases hg : row.get? 1 with
        | none =>
          exfalso
          rw [List.get?_eq_none] at hg
          omega
        | some x =>
          cases x with
          | none =>
            exfalso
            have := hpre row (List.mem_cons_self _ _) none hg
            simp at this
          | some name =>
            by_cases hn : name == "dirty"
            · simp [hn]
            · simp only [hn]
              simp only [Bool.false_eq_true, if_false]
              exact ih (fun r hr => hpre r (List.mem_cons_of_mem _ hr))
      · rw [if_neg hlen]
        exact ih (fun r hr => hpre r (List.mem_cons_of_mem _ hr))
  · rfl

theorem claim_C10_witness :
    (∀ row ∈ [[some "0", some "version", some "TEXT", some "0", none,
          some "0"],
        [some "1", some "dirty", some "TEXT", some "0", none, some "0"]],
      ∀ x : Option String, row.get? 1 = some x → x.isSome) ∧
    (sqliteDirtyScan
        [[some "0", some "version", some "TEXT", some "0", none, some "0"],
         [some "1", some "dirty", some "TEXT", some "0", none,
          some "0"]]).isSome :=
  ⟨by decide, claim_C10.1 _ (by decide)⟩

/-- C8: cleanup always succeeds (in particular when the backup table does
not exist), is idempotent on the database, and its drop statement is never
part of any orchestrator trace. -/
theorem claim_C8 :
    (∀ s : SQLStore,
      deleteOldSchemaMigrationTable s
        = ⟨Except.ok (), removeTable s.db (oldTempName s),
           [Stmt.dropIfExists (oldTempName s)]⟩) ∧
    (∀ s : SQLStore,
      (deleteOldSchemaMigrationTable
          (setDb s (deleteOldSchemaMigrationTable s).db)).db
        = (deleteOldSchemaMigrationTable s).db) ∧
    (∀ s : SQLStore, lookupTable s.db (oldTempName s) = none →
      (deleteOldSchemaMigrationTable s).res = Except.ok ()) ∧
    (∀ (catalog : List Migration) (s : SQLStore) (n : String),
      Stmt.dropIfExists n ∉ (ensureSchemaMigrationFormat catalog s).tr) := by
  refine ⟨fun s => rfl, fun s => ?_, fun s h => rfl, fun catalog s n hmem => ?_⟩
  · exact removeTable_removeTable s.db (oldTempName s)
  · rcases ensure_tr_sub catalog s _ hmem with ⟨m, h⟩ | ⟨m, rows, h⟩
      | ⟨a, b, h⟩ | ⟨a, b, h⟩ <;> simp at h

theorem claim_C8_witness :
    lookupTable (mkStore DBType.generic).db
        (oldTempName (mkStore DBType.generic)) = none ∧
    (deleteOldSchemaMigrationTable (mkStore DBType.generic)).res
      = Except.ok () :=
  ⟨by decide, claim_C8.2.2.1 (mkStore DBType.generic) (by decide)⟩

/-- C7: the swap issues the canonical-to-backup rename first; the
temp-to-canonical rename is issued only if the first succeeded (and then the
trace is exactly the two renames in that order, as it is on any successful
run); on MySQL both statements are in the `RENAME TABLE` family and on every
other dialect in the `ALTER TABLE ... RENAME TO` family. -/
theorem claim_C7 (s : SQLStore) :
    (∀ e : Err,
      execStmt s.db (renameStmt s.dbType (canonicalName s) (oldTempName s))
          = Except.error e →
      useNewSchemaTable s
        = ⟨Except.error e, s.db,
           [renameStmt s.dbType (canonicalName s) (oldTempName s)]⟩) ∧
    (∀ db1 : DB,
      execStmt s.db (renameStmt s.dbType (canonicalName s) (oldTempName s))
          = Except.ok db1 →
      (useNewSchemaTable s).tr
        = [renameStmt s.dbType (canonicalName s) (oldTempName s),
           renameStmt s.dbType (tempName s) (canonicalName s)]) ∧
    ((useNewSchemaTable s).res = Except.ok () →
      (useNewSchemaTable s).tr
        = [renameStmt s.dbType (canonicalName s) (oldTempName s),
           renameStmt s.dbType (tempName s) (canonicalName s)]) ∧
    (s.dbType = DBType.mysql →
      renameStmt s.dbType (canonicalName s) (oldTempName s)
          = Stmt.renameMysql (canonicalName s) (oldTempName s) ∧
      renameStmt s.dbType (tempName s) (canonicalName s)
          = Stmt.renameMysql (tempName s) (canonicalName s)) ∧
    (s.dbType ≠ DBType.mysql →
      renameStmt s.dbType (canonicalName s) (oldTempName s)
          = Stmt.renameAlter (canonicalName s) (oldTempName s) ∧
      renameStmt s.dbType (tempName s) (canonicalName s)
          = Stmt.renameAlter (tempName s) (canonicalName s)) := by
  refine ⟨fun e he => ?_, fun db1 h1 => ?_, fun hok => ?_, fun h => ?_,
    fun h => ?_⟩
  · simp only [useNewSchemaTable]
    rw [he]
  · simp only [useNewSchemaTable]
    rw [h1]
    dsimp only
    cases h2 : execStmt db1
        (renameStmt s.dbType (tempName s) (canonicalName s)) with
    | error e => rfl
    | ok db2 => rfl
  · obtain ⟨tc, tt, -, -, -, -, htr⟩ := useNewSchemaTable_ok s hok
    exact htr
  · exact ⟨by simp [renameStmt, h], by simp [renameStmt, h]⟩
  · exact ⟨by simp [renameStmt, h], by simp [renameStmt, h]⟩

theorem claim_C7_witness :
    (useNewSchemaTable swapStore).tr
      = [Stmt.renameMysql "schema_migrations" "schema_migrations_old_temp",
         Stmt.renameMysql "temp_schema_migrations" "schema_migrations"] := by
  have h := (claim_C7 swapStore).2.2.1 (by decide)
  rw [h]
  rfl

/-- C6: when the populate step fails, the orchestrator returns that very
error, its trace holds no rename statement, and the canonical table is still
in its legacy shape. -/
theorem claim_C6 (catalog : List Migration) (s : SQLStore) (v : Nat)
    (d : Bool) (e : Err)
    (hdet : isSchemaMigrationNeeded s = Except.ok true)
    (hleg : lookupTable s.db (canonicalName s)
      = some (TableData.legacy v d))
    (hpop : (populateTempSchemaTable (setDb s (createTempSchemaTable s).db)
        (filterMigrations catalog v)).res = Except.error e) :
    (ensureSchemaMigrationFormat catalog s).res = Except.error e ∧
    (∀ a b, Stmt.renameMysql a b ∉ (ensureSchemaMigrationFormat catalog s).tr) ∧
    (∀ a b, Stmt.renameAlter a b ∉ (ensureSchemaMigrationFormat catalog s).tr) ∧
    lookupTable (ensureSchemaMigrationFormat catalog s).db (canonicalName s)
      = some (TableData.legacy v d) := by
  have hv : getLegacySchemaVersion s = Except.ok v := by
    unfold getLegacySchemaVersion
    rw [hleg]
  rw [ensure_needed catalog s v hdet hv, hpop]
  dsimp only
  have hctr := (createTempSchemaTable_res s).2.1
  rw [hctr, populateTempSchemaTable_tr]
  simp only [tempName_setDb]
  have hdb := populateTempSchemaTable_err_db
    (setDb s (createTempSchemaTable s).db) (filterMigrations catalog v) e hpop
  rw [hdb]
  simp only [setDb_db]
  refine ⟨trivial, fun a b => ?_, fun a b => ?_, ?_⟩
  · simp
  · simp
  · rw [createTempSchemaTable_lookup_other s (canonicalName s)
      (tempName_ne_canonicalName s).symm]
    exact hleg

theorem claim_C6_witness :
    (ensureSchemaMigrationFormat exCatalog ver0Store).res
        = Except.error Err.emptyInsert ∧
    lookupTable (ensureSchemaMigrationFormat exCatalog ver0Store).db
        (canonicalName ver0Store) = some (TableData.legacy 0 false) := by
  have h := claim_C6 exCatalog ver0Store 0 false Err.emptyInsert
    (by decide) (by decide) (by decide)
  exact ⟨h.1, h.2.2.2⟩

/-- C2: after any successful `EnsureSchemaMigrationFormat` run, a second run
on the resulting database returns no error, performs zero writes (empty
statement trace), and leaves the database unchanged. -/
theorem claim_C2 (catalog : List Migration) (s : SQLStore)
    (hok : (ensureSchemaMigrationFormat catalog s).res = Except.ok ()) :
    (ensureSchemaMigrationFormat catalog
        (setDb s (ensureSchemaMigrationFormat catalog s).db)).res
      = Except.ok () ∧
    (ensureSchemaMigrationFormat catalog
        (setDb s (ensureSchemaMigrationFormat catalog s).db)).tr = [] ∧
    (ensureSchemaMigrationFormat catalog
        (setDb s (ensureSchemaMigrationFormat catalog s).db)).db
      = (ensureSchemaMigrationFormat catalog s).db := by
  cases hdet : isSchemaMigrationNeeded s with
  | error e =>
    rw [ensure_det_err catalog s e hdet] at hok
    simp at hok
  | ok b =>
    cases b with
    | false =>
      have he := ensure_det_false catalog s hdet
      simp only [he, setDb_self]
      exact ⟨trivial, trivial, trivial⟩
    | true =>
      cases hv : getLegacySchemaVersion s with
      | error e =>
        rw [ensure_ver_err catalog s e hdet hv] at hok
        simp at hok
      | ok v =>
        have heq := ensure_needed catalog s v hdet hv
        rw [heq] at hok ⊢
        cases hp : (populateTempSchemaTable
            (setDb s (createTempSchemaTable s).db)
            (filterMigrations catalog v)).res with
        | error e =>
          rw [hp] at hok
          simp at hok
        | ok u0 =>
          rw [hp] at hok
          dsimp only at hok ⊢
          obtain ⟨ex, hne, hlt, hnd, hpdb⟩ :=
            populateTempSchemaTable_ok _ _ (by rw [hp])
          obtain ⟨tc, tt, hcanon, hold, htmp2, hudb, hutr⟩ :=
            useNewSchemaTable_ok _ hok
          simp only [setDb_db, canonicalName_setDb, tempName_setDb,
            oldTempName_setDb] at hlt hpdb hcanon hold htmp2 hudb hutr
          rw [hpdb, lookupTable_setTable_self] at htmp2
          have htt : tt = TableData.log
              (ex ++ (filterMigrations catalog v).map
                (fun m => (m.version, m.name))) := by
            injection htmp2 with hcore
            exact hcore.symm
          have hfin := hudb
          have hdet2 : isSchemaMigrationNeeded
              (setDb s (useNewSchemaTable (setDb s (populateTempSchemaTable
                (setDb s (createTempSchemaTable s).db)
                (filterMigrations catalog v)).db)).db) = Except.ok false := by
            apply isSchemaMigrationNeeded_false_of_log
            intro a t hm ha
            simp only [setDb_db, canonicalName_setDb] at hm ha
            rw [hfin] at hm
            simp only [setTable] at hm
            rcases List.mem_cons.mp hm with hh | hh
            · refine ⟨ex ++ (filterMigrations catalog v).map
                (fun m => (m.version, m.name)), ?_⟩
              have : t = tt := congrArg Prod.snd hh
              rw [this, htt]
            · exfalso
              have := mem_removeTable _ _ _ hh
              exact this.2 ha
          have hres := ensure_det_false catalog _ hdet2
          rw [hres]
          exact ⟨rfl, rfl, rfl⟩

theorem claim_C2_witness :
    (ensureSchemaMigrationFormat exCatalog
        (setDb (mkStore DBType.generic)
          (ensureSchemaMigrationFormat exCatalog (mkStore DBType.generic)).db)).res
      = Except.ok () ∧
    (ensureSchemaMigrationFormat exCatalog
        (setDb (mkStore DBType.generic)
          (ensureSchemaMigrationFormat exCatalog (mkStore DBType.generic)).db)).tr
      = [] ∧
    (ensureSchemaMigrationFormat exCatalog
        (setDb (mkStore DBType.generic)
          (ensureSchemaMigrationFormat exCatalog (mkStore DBType.generic)).db)).db
      = (ensureSchemaMigrationFormat exCatalog (mkStore DBType.generic)).db :=
  claim_C2 exCatalog (mkStore DBType.generic) (by decide)

/-- C1 counterexample: on a Postgres-like store with a legacy-shaped
canonical table, `EnsureSchemaMigrationFormat` succeeds while leaving the
table legacy and creating no backup table — refuting the claim as stated
for the Postgres dialect (the detector's schema filter compares against the
bound literal `"current_schema()"`). -/
theorem claim_C1_counterexample :
    (ensureSchemaMigrationFormat exCatalog (mkStore DBType.postgres)).res
        = Except.ok () ∧
    lookupTable
        (ensureSchemaMigrationFormat exCatalog (mkStore DBType.postgres)).db
        (canonicalName (mkStore DBType.postgres))
      = some (TableData.legacy 3 true) ∧
    lookupTable
        (ensureSchemaMigrationFormat exCatalog (mkStore DBType.postgres)).db
        (oldTempName (mkStore DBType.postgres)) = none := by
  decide

/-- C1 (amended to the non-Postgres dialects): starting from a well-formed
database whose canonical table is legacy-shaped at version `v` and with no
temp table, a successful `EnsureSchemaMigrationFormat` leaves the canonical
table holding exactly the filtered Up descriptors as `(version, name)` rows,
and the backup `_old_temp` table holding the pre-migration legacy row. -/
theorem claim_C1 (catalog : List Migration) (s : SQLStore) (v : Nat)
    (d : Bool)
    (hdt : s.dbType ≠ DBType.postgres)
    (hwf : (s.db.map Prod.fst).Nodup)
    (hleg : lookupTable s.db (canonicalName s)
      = some (TableData.legacy v d))
    (htemp : lookupTable s.db (tempName s) = none)
    (hok : (ensureSchemaMigrationFormat catalog s).res = Except.ok ()) :
    lookupTable (ensureSchemaMigrationFormat catalog s).db (canonicalName s)
      = some (TableData.log
          ((filterMigrations catalog v).map (fun m => (m.version, m.name)))) ∧
    lookupTable (ensureSchemaMigrationFormat catalog s).db (oldTempName s)
      = some (TableData.legacy v d) := by
  have hdet := isSchemaMigrationNeeded_true_of_legacy s hdt hwf v d hleg
  have hv : getLegacySchemaVersion s = Except.ok v := by
    unfold getLegacySchemaVersion
    rw [hleg]
  have hcdb : (createTempSchemaTable s).db
      = setTable s.db (tempName s) (TableData.log []) := by
    obtain ⟨-, -, hdb⟩ := createTempSchemaTable_res s
    rw [hdb, if_neg]
    simp [htemp]
  rw [ensure_needed catalog s v hdet hv] at hok ⊢
  cases hp : (populateTempSchemaTable (setDb s (createTempSchemaTable s).db)
      (filterMigrations catalog v)).res with
  | error e =>
    rw [hp] at hok
    simp at hok
  | ok u0 =>
    rw [hp] at hok
    dsimp only at hok ⊢
    obtain ⟨ex, hne, hlt, hnd, hpdb⟩ :=
      populateTempSchemaTable_ok _ _ (by rw [hp])
    obtain ⟨tc, tt, hcanon, hold, htmp2, hudb, hutr⟩ :=
      useNewSchemaTable_ok _ hok
    simp only [setDb_db, canonicalName_setDb, tempName_setDb,
      oldTempName_setDb] at hlt hpdb hcanon hold htmp2 hudb hutr
    rw [hcdb, lookupTable_setTable_self] at hlt
    have hex : ex = [] := by
      injection hlt with hcore
      injection hcore with hcore2
      exact hcore2.symm
    subst hex
    rw [hpdb, lookupTable_setTable_ne _ _ _ _
      (tempName_ne_canonicalName s).symm, hcdb,
      lookupTable_setTable_ne _ _ _ _ (tempName_ne_canonicalName s).symm,
      hleg] at hcanon
    have htc : tc = TableData.legacy v d := by
      injection hcanon with hcore
      exact hcore.symm
    rw [hpdb, lookupTable_setTable_self] at htmp2
    have htt : tt = TableData.log
        ((filterMigrations catalog v).map (fun m => (m.version, m.name))) := by
      injection htmp2 with hcore
      rw [← hcore]
      simp
    rw [hudb]
    constructor
    · rw [lookupTable_setTable_self, htt]
    · rw [lookupTable_setTable_ne _ _ _ _ (oldTempName_ne_canonicalName s),
        lookupTable_removeTable_ne _ _ _ (tempName_ne_oldTempName s).symm,
        lookupTable_setTable_self, htc]

theorem claim_C1_witness :
    (mkStore DBType.generic).dbType ≠ DBType.postgres ∧
    lookupTable
        (ensureSchemaMigrationFormat exCatalog (mkStore DBType.generic)).db
        (canonicalName (mkStore DBType.generic))
      = some (TableData.log
          ((filterMigrations exCatalog 3).map (fun m => (m.version, m.name)))) ∧
    lookupTable
        (ensureSchemaMigrationFormat exCatalog (mkStore DBType.generic)).db
        (oldTempName (mkStore DBType.generic))
      = some (TableData.legacy 3 true) :=
  ⟨by decide,
   claim_C1 exCatalog (mkStore DBType.generic) 3 true (by decide) (by decide)
     (by decide) (by decide) (by decide)⟩

end SchemaTableMigration
